import Mathlib

/-!
Verification development for the `alert_watcher` log watcher
(`src/alert_watcher/watcher.py`).

The Python program is shallowly embedded below:

* `kvScanAux` / `kvTokensRaw` model `re.finditer` with the pattern
  `(\b[\w_]+)=([^\s]+)` (the character class `\w` is modelled over ASCII:
  letters, digits and underscore; the log keys in scope are all ASCII);
* `pyDict` / `pyGet` model building a Python `dict` from the matches
  (later occurrences of a key overwrite earlier ones) and `dict.get`;
* `stripQuotes` models `str.strip('"')`;
* `pyInt?` models `int(s)` on the quote-stripped token values (ASCII
  digits, an optional sign, and single underscores between digits; such a
  value can contain no whitespace because the regex value class is `[^\s]+`);
* `parse_line` models `parse_line`;
* `send_slack` models the success/failure outcome of `send_slack`: the
  webhook may be absent, the HTTP post may raise (modelled as `none`), or
  it returns a status code;
* `dequePush` models `deque(maxlen=N).append`;
* `stepFailover` / `stepError` / `stepRecord` model one iteration of the
  `main` loop on one parsed record.  Wall-clock values returned by
  `time.time()` and the delivery outcomes of `send_slack` are inputs of the
  step (`nowF`/`nowE` for the two `time.time()` calls, `okF`/`okE` for the
  two possible deliveries); times and the error rate are modelled in `ℚ`.
  The step also returns the list of notification requests issued (the
  `send_slack` calls made), in order.
-/

namespace AlertWatcher

/-- ASCII model of the regex class `[\w_]` (Python `\w`): letters, digits
and the underscore. -/
def isWordChar (c : Char) : Bool := c.isAlphanum || c == '_'

/-- Fuel-indexed left-to-right scan modelling `re.finditer` with
`KV_RE = (\b[\w_]+)=([^\s]+)`.  `prevWord` records whether the previous
character is a word character (for the `\b` word boundary; at the start of
the string it is `false`).  A match needs a maximal word-character run
starting at a boundary, then `=`, then a nonempty greedy run of
non-whitespace characters; scanning resumes after the match.  When no
match starts at the current position the scan advances (a failed attempt
inside a word run can never succeed later in that run, so the whole run is
skipped). -/
def kvScanAux : Nat → Bool → List Char → List (String × String)
  | 0, _, _ => []
  | _ + 1, _, [] => []
  | fuel + 1, prevWord, c :: rest =>
    if prevWord || !isWordChar c then
      kvScanAux fuel (isWordChar c) rest
    else
      let keyTail := rest.takeWhile isWordChar
      let afterKey := rest.dropWhile isWordChar
      match afterKey with
      | '=' :: afterEq =>
        let v := afterEq.takeWhile (fun d => !d.isWhitespace)
        if v.isEmpty then
          kvScanAux fuel true afterKey
        else
          (String.mk (c :: keyTail), String.mk v) ::
            kvScanAux fuel (isWordChar (v.getLastD ' '))
              (afterEq.dropWhile (fun d => !d.isWhitespace))
      | _ => kvScanAux fuel true afterKey

/-- All `key=value` matches of `KV_RE` in a line, in order (values not yet
quote-stripped).  Each recursive call of `kvScanAux` consumes at least one
character, so `length + 1` fuel always suffices. -/
def kvTokensRaw (line : String) : List (String × String) :=
  kvScanAux (line.toList.length + 1) false line.toList

/-- Python `str.strip('"')`: remove every leading and trailing `"`. -/
def stripQuotes (s : String) : String :=
  String.mk (((s.toList.dropWhile (fun c => c == '"')).reverse.dropWhile
    (fun c => c == '"')).reverse)

/-- One assignment `d[k] = v` on a Python dict modelled as an association
list without duplicate keys: overwrite the existing entry, else append. -/
def pyDictInsert (d : List (String × String)) (k v : String) :
    List (String × String) :=
  if d.any (fun p => p.1 == k) then
    d.map (fun p => if p.1 == k then (k, v) else p)
  else d ++ [(k, v)]

/-- The Python dict built from a list of key/value pairs (the dict
comprehension in `parse_line`): later pairs overwrite earlier ones. -/
def pyDict (ts : List (String × String)) : List (String × String) :=
  ts.foldl (fun d p => pyDictInsert d p.1 p.2) []

/-- Python `dict.get k` (`none` when the key is absent). -/
def pyGet (d : List (String × String)) (k : String) : Option String :=
  (d.find? (fun p => p.1 == k)).map (fun p => p.2)

/-- The `fields` dict of `parse_line`: every regex match, its value
quote-stripped, inserted in order. -/
def fieldsOf (line : String) : List (String × String) :=
  pyDict ((kvTokensRaw line).map (fun p => (p.1, stripQuotes p.2)))

/-- Digit tail of Python `int()`: ASCII digits, where a single underscore
may stand between two digits. -/
def pyIntDigitsAux : Nat → List Char → Option Nat
  | acc, [] => some acc
  | acc, '_' :: c :: cs =>
    if c.isDigit then pyIntDigitsAux (10 * acc + (c.toNat - 48)) cs else none
  | acc, c :: cs =>
    if c.isDigit then pyIntDigitsAux (10 * acc + (c.toNat - 48)) cs else none

/-- Nonempty ASCII digit string (with inner underscores) to `Nat`. -/
def pyNatOfChars : List Char → Option Nat
  | [] => none
  | c :: cs => if c.isDigit then pyIntDigitsAux (c.toNat - 48) cs else none

/-- ASCII model of Python `int(s)` on a whitespace-free string: optional
sign, then digits with optional single underscores between digits; `none`
on any parse failure (Python raises `ValueError`, which `parse_line`
catches). -/
def pyInt? (s : String) : Option Int :=
  match s.toList with
  | '+' :: cs => (pyNatOfChars cs).map (fun n => (n : Int))
  | '-' :: cs => (pyNatOfChars cs).map (fun n => -(n : Int))
  | cs => (pyNatOfChars cs).map (fun n => (n : Int))

/-- Tests whether `needle` begins `hay`. -/
def listStartsWith : List Char → List Char → Bool
  | _, [] => true
  | [], _ :: _ => false
  | a :: as, b :: bs => a == b && listStartsWith as bs

/-- Tests whether `needle` occurs somewhere in `hay` (Python `needle in hay`). -/
def listContainsSeq : List Char → List Char → Bool
  | [], needle => needle.isEmpty
  | c :: t, needle => listStartsWith (c :: t) needle || listContainsSeq t needle

/-- Python substring test `needle in hay`. -/
def containsSubstr (hay needle : String) : Bool :=
  listContainsSeq hay.toList needle.toList

/-- ASCII model of Python `str.lower()` on one character. -/
def charLower (c : Char) : Char :=
  if 65 ≤ c.toNat ∧ c.toNat ≤ 90 then Char.ofNat (c.toNat + 32) else c

/-- ASCII model of Python `str.lower()`. -/
def strLower (s : String) : String := String.mk (s.toList.map charLower)

/-- The record returned by `parse_line`. -/
structure LogRecord where
  status : Option Int
  pool : Option String
  release : String
  upstream_status : String
  upstream_addr : String
  request_time : String
  upstream_response_time : String
  raw : String
  deriving DecidableEq

/-- The `status` computation of `parse_line`: present field parsed as an
integer, `none` on absence or parse failure. -/
def statusOf (fs : List (String × String)) : Option Int :=
  match pyGet fs "status" with
  | some v => pyInt? v
  | none => none

/-- The `upstream_addr`-based pool inference of `parse_line`
(`"app-blue" in upstream` checked before `"app-green" in upstream`). -/
def inferUpstream (fs : List (String × String)) : Option String :=
  match pyGet fs "upstream_addr" with
  | some up =>
    if containsSubstr up "app-blue" then some "blue"
    else if containsSubstr up "app-green" then some "green"
    else none
  | none => none

/-- The `pool` computation of `parse_line`: a truthy (present, nonempty)
explicit `pool` field wins, else inference from `upstream_addr`; the
result is lower-cased (`(pool or "").lower() if pool else None`). -/
def poolOf (fs : List (String × String)) : Option String :=
  let pool0 : Option String :=
    match pyGet fs "pool" with
    | some v => if v == "" then inferUpstream fs else some v
    | none => inferUpstream fs
  pool0.map strLower

/-- Python `fields.get(k) or sentinel`: the sentinel replaces an absent or
empty (falsy) value. -/
def orSentinel (o : Option String) (d : String) : String :=
  match o with
  | some v => if v == "" then d else v
  | none => d

/-- Model of `parse_line`. -/
def parse_line (line : String) : LogRecord :=
  let fs := fieldsOf line
  { status := statusOf fs
    pool := poolOf fs
    release := orSentinel (pyGet fs "release") "unknown"
    upstream_status := orSentinel (pyGet fs "upstream_status") "-"
    upstream_addr := orSentinel (pyGet fs "upstream_addr") "-"
    request_time := orSentinel (pyGet fs "request_time") "-"
    upstream_response_time := orSentinel (pyGet fs "upstream_response_time") "-"
    raw := line }

/-- Outcome of `send_slack`: `false` when `SLACK_WEBHOOK_URL` is unset,
`false` when the post raises (`response = none`) or returns a status
`≥ 400`, `true` for any status `< 400`. -/
def send_slack (webhook : Option String) (response : Option Nat) : Bool :=
  match webhook with
  | none => false
  | some _ =>
    match response with
    | none => false
    | some code => decide (code < 400)

/-- Model of `deque(maxlen=N).append x` on contents `w` (oldest first). -/
def dequePush (maxlen : Nat) (w : List Nat) (x : Nat) : List Nat :=
  (w ++ [x]).drop (w.length + 1 - maxlen)

/-- The `is_5xx` test of the loop body: a present status in `[500, 600)`. -/
def is5xx (s : Option Int) : Bool :=
  match s with
  | some n => decide (500 ≤ n) && decide (n < 600)
  | none => false

/-- The window sample appended for a record (`1 if is_5xx else 0`). -/
def errSample (d : LogRecord) : Nat := if is5xx d.status then 1 else 0

/-- The rate `error_rate = (sum(window) / len(window)) * 100.0`, in `ℚ`. -/
def winRate (w : List Nat) : ℚ := ((w.sum : ℚ) / (w.length : ℚ)) * 100

/-- The three message kinds `main` can post. -/
inductive AlertKind where
  | failover
  | errorRate
  | recovery
  deriving DecidableEq

/-- Configuration read from the environment at startup. -/
structure Config where
  windowSize : Nat
  threshold : ℚ
  cooldown : ℚ
  maintenance : Bool

/-- The mutable state of the `main` loop. -/
structure WatcherState where
  window : List Nat
  last_seen_pool : String
  lastFailover : ℚ
  lastErrorRate : ℚ
  alerted_error : Bool
  deriving DecidableEq

/-- The state of `main` right after startup, with `ACTIVE_POOL` already
lower-cased. -/
def initState (activePool : String) : WatcherState :=
  { window := []
    last_seen_pool := activePool
    lastFailover := 0
    lastErrorRate := 0
    alerted_error := false }

/-- The pool-flip section of the `main` loop body: the guard
`pool and last_seen_pool and pool != last_seen_pool`, then maintenance,
cooldown, or a `send_slack` call whose success advances
`last_alert_time["failover"]`; `last_seen_pool` advances in every branch
of a detected flip.  Returns the new state and the notification requests
issued. -/
def stepFailover (cfg : Config) (st : WatcherState) (d : LogRecord)
    (now : ℚ) (ok : Bool) : WatcherState × List AlertKind :=
  match d.pool with
  | none => (st, [])
  | some p =>
    if p ≠ "" ∧ st.last_seen_pool ≠ "" ∧ p ≠ st.last_seen_pool then
      if cfg.maintenance then
        ({ st with last_seen_pool := p }, [])
      else if cfg.cooldown ≤ now - st.lastFailover then
        if ok then
          ({ st with last_seen_pool := p, lastFailover := now },
            [AlertKind.failover])
        else
          ({ st with last_seen_pool := p }, [AlertKind.failover])
      else
        ({ st with last_seen_pool := p }, [])
    else (st, [])

/-- The error-rate section of the `main` loop body: append the sample,
then (on a nonempty window) either the elevated-rate branch
(`error_rate > threshold`: maintenance, cooldown, or send — success sets
`last_alert_time["error_rate"]` and `alerted_error`) or the recovery
branch (`alerted_error` and cooldown elapsed: send — success resets both).
The recovery branch has no maintenance check, mirroring the code. -/
def stepError (cfg : Config) (st : WatcherState) (d : LogRecord)
    (now : ℚ) (ok : Bool) : WatcherState × List AlertKind :=
  let w := dequePush cfg.windowSize st.window (errSample d)
  let st1 := { st with window := w }
  if 1 ≤ w.length then
    if winRate w > cfg.threshold then
      if cfg.maintenance then (st1, [])
      else if cfg.cooldown ≤ now - st.lastErrorRate then
        if ok then
          ({ st1 with lastErrorRate := now, alerted_error := true },
            [AlertKind.errorRate])
        else (st1, [AlertKind.errorRate])
      else (st1, [])
    else
      if st.alerted_error = true ∧ cfg.cooldown ≤ now - st.lastErrorRate then
        if ok then
          ({ st1 with lastErrorRate := now, alerted_error := false },
            [AlertKind.recovery])
        else (st1, [AlertKind.recovery])
      else (st1, [])
  else (st1, [])

/-- One full iteration of the `main` loop on one parsed record: the flip
section, then the error-rate section, with the two `time.time()` calls
(`nowF`, `nowE`) and the two possible delivery outcomes (`okF`, `okE`) as
inputs. -/
def stepRecord (cfg : Config) (st : WatcherState) (d : LogRecord)
    (nowF nowE : ℚ) (okF okE : Bool) : WatcherState × List AlertKind :=
  let r1 := stepFailover cfg st d nowF okF
  let r2 := stepError cfg r1.1 d nowE okE
  (r2.1, r1.2 ++ r2.2)

/-- One full iteration of the `main` loop on one raw line. -/
def stepLine (cfg : Config) (st : WatcherState) (line : String)
    (nowF nowE : ℚ) (okF okE : Bool) : WatcherState × List AlertKind :=
  stepRecord cfg st (parse_line line) nowF nowE okF okE

/-! ### Branch lemmas for the two decision procedures -/

lemma stepFailover_no_pool (cfg : Config) (st : WatcherState) (d : LogRecord)
    (now : ℚ) (ok : Bool) (h : d.pool = none) :
    stepFailover cfg st d now ok = (st, []) := by
  simp only [stepFailover, h]

lemma stepFailover_no_flip (cfg : Config) (st : WatcherState) (d : LogRecord)
    (now : ℚ) (ok : Bool) (p : String) (h : d.pool = some p)
    (hc : ¬(p ≠ "" ∧ st.last_seen_pool ≠ "" ∧ p ≠ st.last_seen_pool)) :
    stepFailover cfg st d now ok = (st, []) := by
  simp only [stepFailover, h]
  rw [if_neg hc]

lemma stepFailover_maint (cfg : Config) (st : WatcherState) (d : LogRecord)
    (now : ℚ) (ok : Bool) (p : String) (h : d.pool = some p)
    (hc : p ≠ "" ∧ st.last_seen_pool ≠ "" ∧ p ≠ st.last_seen_pool)
    (hm : cfg.maintenance = true) :
    stepFailover cfg st d now ok = ({ st with last_seen_pool := p }, []) := by
  simp only [stepFailover, h, hm]
  rw [if_pos hc]
  simp

lemma stepFailover_cooldown (cfg : Config) (st : WatcherState) (d : LogRecord)
    (now : ℚ) (ok : Bool) (p : String) (h : d.pool = some p)
    (hc : p ≠ "" ∧ st.last_seen_pool ≠ "" ∧ p ≠ st.last_seen_pool)
    (hm : cfg.maintenance = false)
    (hcd : ¬ cfg.cooldown ≤ now - st.lastFailover) :
    stepFailover cfg st d now ok = ({ st with last_seen_pool := p }, []) := by
  simp only [stepFailover, h, hm]
  rw [if_pos hc, if_neg hcd]
  simp

lemma stepFailover_send (cfg : Config) (st : WatcherState) (d : LogRecord)
    (now : ℚ) (ok : Bool) (p : String) (h : d.pool = some p)
    (hc : p ≠ "" ∧ st.last_seen_pool ≠ "" ∧ p ≠ st.last_seen_pool)
    (hm : cfg.maintenance = false)
    (hcd : cfg.cooldown ≤ now - st.lastFailover) :
    stepFailover cfg st d now ok =
      (if ok then { st with last_seen_pool := p, lastFailover := now }
       else { st with last_seen_pool := p }, [AlertKind.failover]) := by
  simp only [stepFailover, h, hm]
  rw [if_pos hc, if_pos hcd]
  cases ok <;> simp

/-- Shorthand for the window after the `window.append` of one record. -/
def pushedWindow (cfg : Config) (st : WatcherState) (d : LogRecord) : List Nat :=
  dequePush cfg.windowSize st.window (errSample d)

lemma stepError_empty (cfg : Config) (st : WatcherState) (d : LogRecord)
    (now : ℚ) (ok : Bool) (hl : ¬ 1 ≤ (pushedWindow cfg st d).length) :
    stepError cfg st d now ok = ({ st with window := pushedWindow cfg st d }, []) := by
  simp only [stepError, pushedWindow] at hl ⊢
  rw [if_neg hl]

lemma stepError_high_maint (cfg : Config) (st : WatcherState) (d : LogRecord)
    (now : ℚ) (ok : Bool) (hl : 1 ≤ (pushedWindow cfg st d).length)
    (hr : winRate (pushedWindow cfg st d) > cfg.threshold)
    (hm : cfg.maintenance = true) :
    stepError cfg st d now ok = ({ st with window := pushedWindow cfg st d }, []) := by
  simp only [stepError, pushedWindow, hm] at hl hr ⊢
  rw [if_pos hl, if_pos hr]
  simp

lemma stepError_high_cooldown (cfg : Config) (st : WatcherState) (d : LogRecord)
    (now : ℚ) (ok : Bool) (hl : 1 ≤ (pushedWindow cfg st d).length)
    (hr : winRate (pushedWindow cfg st d) > cfg.threshold)
    (hm : cfg.maintenance = false)
    (hcd : ¬ cfg.cooldown ≤ now - st.lastErrorRate) :
    stepError cfg st d now ok = ({ st with window := pushedWindow cfg st d }, []) := by
  simp only [stepError, pushedWindow, hm] at hl hr ⊢
  rw [if_pos hl, if_pos hr, if_neg hcd]
  simp

lemma stepError_high_send (cfg : Config) (st : WatcherState) (d : LogRecord)
    (now : ℚ) (ok : Bool) (hl : 1 ≤ (pushedWindow cfg st d).length)
    (hr : winRate (pushedWindow cfg st d) > cfg.threshold)
    (hm : cfg.maintenance = false)
    (hcd : cfg.cooldown ≤ now - st.lastErrorRate) :
    stepError cfg st d now ok =
      (if ok then
        { st with window := pushedWindow cfg st d, lastErrorRate := now, alerted_error := true }
       else { st with window := pushedWindow cfg st d }, [AlertKind.errorRate]) := by
  simp only [stepError, pushedWindow, hm] at hl hr ⊢
  rw [if_pos hl, if_pos hr, if_pos hcd]
  cases ok <;> simp

lemma stepError_low_idle (cfg : Config) (st : WatcherState) (d : LogRecord)
    (now : ℚ) (ok : Bool) (hl : 1 ≤ (pushedWindow cfg st d).length)
    (hr : ¬ winRate (pushedWindow cfg st d) > cfg.threshold)
    (hrec : ¬(st.alerted_error = true ∧ cfg.cooldown ≤ now - st.lastErrorRate)) :
    stepError cfg st d now ok = ({ st with window := pushedWindow cfg st d }, []) := by
  simp only [stepError, pushedWindow] at hl hr ⊢
  rw [if_pos hl, if_neg hr, if_neg hrec]

lemma stepError_recovery (cfg : Config) (st : WatcherState) (d : LogRecord)
    (now : ℚ) (ok : Bool) (hl : 1 ≤ (pushedWindow cfg st d).length)
    (hr : ¬ winRate (pushedWindow cfg st d) > cfg.threshold)
    (ha : st.alerted_error = true)
    (hcd : cfg.cooldown ≤ now - st.lastErrorRate) :
    stepError cfg st d now ok =
      (if ok then
        { st with window := pushedWindow cfg st d, lastErrorRate := now, alerted_error := false }
       else { st with window := pushedWindow cfg st d }, [AlertKind.recovery]) := by
  simp only [stepError, pushedWindow] at hl hr ⊢
  rw [if_pos hl, if_neg hr, if_pos ⟨ha, hcd⟩]
  cases ok <;> simp

/-! ### Dictionary lemmas: Python dict building keeps the last occurrence -/

/-- The value of the last `key=value` occurrence for `k` in a token list. -/
def lastVal (ts : List (String × String)) (k : String) : Option String :=
  (ts.reverse.find? (fun p => p.1 == k)).map (fun p => p.2)

lemma pyGet_map_overwrite_hit (d : List (String × String)) (k' v' : String) :
    pyGet (d.map (fun p => if p.1 == k' then (k', v') else p)) k' =
      if d.any (fun p => p.1 == k') then some v' else none := by
  induction d with
  | nil => simp [pyGet]
  | cons p t ih =>
    by_cases hp : p.1 = k'
    · simp [pyGet, List.any_cons, hp, List.find?_cons_of_pos]
    · have h1 : ((if (p.1 == k') = true then (k', v') else p) : String × String)
          = p := by simp [beq_iff_eq, hp]
      simp only [List.map_cons, pyGet, h1]
      have hne : ¬ (p.1 == k') = true := by simp [beq_iff_eq, hp]
      rw [List.find?_cons_of_neg (p := fun q : String × String => q.1 == k') _ hne]
      simp only [pyGet] at ih
      rw [ih]
      have hfalse : (p.1 == k') = false := by simpa using hne
      rw [List.any_cons, hfalse, Bool.false_or]

lemma pyGet_map_overwrite_miss (d : List (String × String)) (k' v' k : String)
    (hk : k ≠ k') :
    pyGet (d.map (fun p => if p.1 == k' then (k', v') else p)) k = pyGet d k := by
  induction d with
  | nil => simp [pyGet]
  | cons p t ih =>
    by_cases hp : p.1 = k'
    · have h1 : ((if (p.1 == k') = true then (k', v') else p) : String × String)
          = (k', v') := by simp [beq_iff_eq, hp]
      have hne1 : ¬ (((k', v') : String × String).1 == k) = true := by
        simp [beq_iff_eq]
        exact fun h => hk h.symm
      have hne2 : ¬ (p.1 == k) = true := by
        simp [beq_iff_eq, hp]
        exact fun h => hk h.symm
      simp only [List.map_cons, pyGet, h1]
      rw [List.find?_cons_of_neg (p := fun q : String × String => q.1 == k) _ hne1,
        List.find?_cons_of_neg (p := fun q : String × String => q.1 == k) _ hne2]
      simpa [pyGet] using ih
    · have h1 : ((if (p.1 == k') = true then (k', v') else p) : String × String)
          = p := by simp [beq_iff_eq, hp]
      simp only [List.map_cons, pyGet, h1]
      by_cases hpk : p.1 = k
      · have hyes : ((p.1 == k)) = true := by simp [beq_iff_eq, hpk]
        rw [List.find?_cons_of_pos (p := fun q : String × String => q.1 == k) _ hyes,
          List.find?_cons_of_pos (p := fun q : String × String => q.1 == k) _ hyes]
      · have hno : ¬ (p.1 == k) = true := by simp [beq_iff_eq, hpk]
        rw [List.find?_cons_of_neg (p := fun q : String × String => q.1 == k) _ hno,
          List.find?_cons_of_neg (p := fun q : String × String => q.1 == k) _ hno]
        simpa [pyGet] using ih

lemma pyGet_insert (d : List (String × String)) (k' v' k : String) :
    pyGet (pyDictInsert d k' v') k = if k = k' then some v' else pyGet d k := by
  unfold pyDictInsert
  by_cases h : d.any (fun p => p.1 == k') = true
  · rw [if_pos h]
    by_cases hk : k = k'
    · subst hk
      rw [pyGet_map_overwrite_hit, if_pos h, if_pos rfl]
    · rw [pyGet_map_overwrite_miss _ _ _ _ hk, if_neg hk]
  · rw [if_neg h]
    unfold pyGet
    rw [List.find?_append]
    by_cases hk : k = k'
    · subst hk
      have hnone : d.find? (fun p => p.1 == k) = none := by
        rw [List.find?_eq_none]
        intro x hx hbx
        exact h (List.any_eq_true.2 ⟨x, hx, hbx⟩)
      have hone : List.find? (fun p => p.1 == k) [(k, v')] = some (k, v') := by
        apply List.find?_cons_of_pos (p := fun q : String × String => q.1 == k)
        simp
      rw [hnone, hone]
      simp
    · have hone : List.find? (fun p => p.1 == k) [(k', v')] = none := by
        have hne : ¬ (((k', v') : String × String).1 == k) = true := by
          simp [beq_iff_eq]
          exact fun hkk => hk hkk.symm
        rw [List.find?_cons_of_neg (p := fun q : String × String => q.1 == k) _ hne]
        rfl
      rw [hone, if_neg hk, Option.or_none]

lemma pyGet_foldl (ts : List (String × String)) (d : List (String × String))
    (k : String) :
    pyGet (ts.foldl (fun d p => pyDictInsert d p.1 p.2) d) k =
      match lastVal ts k with
      | some v => some v
      | none => pyGet d k := by
  induction ts generalizing d with
  | nil => simp [lastVal]
  | cons p t ih =>
    simp only [List.foldl_cons]
    rw [ih]
    unfold lastVal
    simp only [List.reverse_cons, List.find?_append]
    cases hfind : (t.reverse.find? (fun q => q.1 == k)) with
    | some q => simp [Option.or]
    | none =>
      simp only [Option.none_or]
      rw [pyGet_insert]
      by_cases hk : k = p.1
      · have hyes : ((p.1 == k)) = true := by simp [beq_iff_eq, hk.symm]
        rw [List.find?_cons_of_pos (p := fun q : String × String => q.1 == k) _ hyes,
          if_pos hk]
        simp
      · have hno : ¬ (p.1 == k) = true := by
          simp [beq_iff_eq]
          exact fun h => hk h.symm
        rw [List.find?_cons_of_neg (p := fun q : String × String => q.1 == k) _ hno,
          if_neg hk]
        simp

lemma pyGet_pyDict_eq_lastVal (ts : List (String × String)) (k : String) :
    pyGet (pyDict ts) k = lastVal ts k := by
  unfold pyDict
  rw [pyGet_foldl]
  cases h : lastVal ts k <;> simp [pyGet]

/-! ### Window lemmas -/

lemma dequePush_length_le (N : Nat) (w : List Nat) (x : Nat)
    (h : w.length ≤ N) : (dequePush N w x).length ≤ N := by
  unfold dequePush
  rw [List.length_drop]
  simp only [List.length_append, List.length_cons, List.length_nil]
  omega

lemma dequePush_length_full (N : Nat) (w : List Nat) (x : Nat)
    (h : w.length = N) : (dequePush N w x).length = N := by
  unfold dequePush
  rw [List.length_drop]
  simp only [List.length_append, List.length_cons, List.length_nil]
  omega

lemma dequePush_full_fifo (N : Nat) (w : List Nat) (x : Nat)
    (h : w.length = N) (hN : 0 < N) :
    dequePush N w x = w.drop 1 ++ [x] := by
  unfold dequePush
  have h1 : w.length + 1 - N = 1 := by omega
  rw [h1, List.drop_append_of_le_length (by omega)]

lemma dequePush_not_full (N : Nat) (w : List Nat) (x : Nat)
    (h : w.length < N) : dequePush N w x = w ++ [x] := by
  unfold dequePush
  have h0 : w.length + 1 - N = 0 := by omega
  rw [h0, List.drop_zero]

/-! ### Projection lemmas for `parse_line` and the step functions -/

lemma parse_line_pool (line : String) :
    (parse_line line).pool = poolOf (fieldsOf line) := rfl

lemma parse_line_status (line : String) :
    (parse_line line).status = statusOf (fieldsOf line) := rfl

lemma stepFailover_window (cfg : Config) (st : WatcherState) (d : LogRecord)
    (now : ℚ) (ok : Bool) :
    (stepFailover cfg st d now ok).1.window = st.window := by
  cases hd : d.pool <;> simp only [stepFailover, hd] <;> split_ifs <;> rfl

lemma stepFailover_lastErrorRate (cfg : Config) (st : WatcherState)
    (d : LogRecord) (now : ℚ) (ok : Bool) :
    (stepFailover cfg st d now ok).1.lastErrorRate = st.lastErrorRate := by
  cases hd : d.pool <;> simp only [stepFailover, hd] <;> split_ifs <;> rfl

lemma stepFailover_alerted (cfg : Config) (st : WatcherState)
    (d : LogRecord) (now : ℚ) (ok : Bool) :
    (stepFailover cfg st d now ok).1.alerted_error = st.alerted_error := by
  cases hd : d.pool <;> simp only [stepFailover, hd] <;> split_ifs <;> rfl

lemma stepError_window (cfg : Config) (st : WatcherState) (d : LogRecord)
    (now : ℚ) (ok : Bool) :
    (stepError cfg st d now ok).1.window =
      dequePush cfg.windowSize st.window (errSample d) := by
  simp only [stepError]
  split_ifs <;> rfl

lemma stepError_lastFailover (cfg : Config) (st : WatcherState) (d : LogRecord)
    (now : ℚ) (ok : Bool) :
    (stepError cfg st d now ok).1.lastFailover = st.lastFailover := by
  simp only [stepError]
  split_ifs <;> rfl

lemma stepError_last_seen_pool (cfg : Config) (st : WatcherState) (d : LogRecord)
    (now : ℚ) (ok : Bool) :
    (stepError cfg st d now ok).1.last_seen_pool = st.last_seen_pool := by
  simp only [stepError]
  split_ifs <;> rfl

lemma stepFailover_sends_le_one (cfg : Config) (st : WatcherState)
    (d : LogRecord) (now : ℚ) (ok : Bool) :
    (stepFailover cfg st d now ok).2.length ≤ 1 := by
  cases hd : d.pool
  · simp [stepFailover, hd]
  · simp only [stepFailover, hd]
    split_ifs <;> simp

lemma stepError_sends_le_one (cfg : Config) (st : WatcherState)
    (d : LogRecord) (now : ℚ) (ok : Bool) :
    (stepError cfg st d now ok).2.length ≤ 1 := by
  simp only [stepError]
  split_ifs <;> simp

lemma stepRecord_sends (cfg : Config) (st : WatcherState) (d : LogRecord)
    (nF nE : ℚ) (oF oE : Bool) :
    (stepRecord cfg st d nF nE oF oE).2 =
      (stepFailover cfg st d nF oF).2 ++
      (stepError cfg (stepFailover cfg st d nF oF).1 d nE oE).2 := rfl

lemma stepRecord_state (cfg : Config) (st : WatcherState) (d : LogRecord)
    (nF nE : ℚ) (oF oE : Bool) :
    (stepRecord cfg st d nF nE oF oE).1 =
      (stepError cfg (stepFailover cfg st d nF oF).1 d nE oE).1 := rfl

lemma stepRecord_eq (cfg : Config) (st : WatcherState) (d : LogRecord)
    (nF nE : ℚ) (oF oE : Bool) (st1 : WatcherState) (a1 : List AlertKind)
    (st2 : WatcherState) (a2 : List AlertKind)
    (h1 : stepFailover cfg st d nF oF = (st1, a1))
    (h2 : stepError cfg st1 d nE oE = (st2, a2)) :
    stepRecord cfg st d nF nE oF oE = (st2, a1 ++ a2) := by
  rw [Prod.ext_iff, stepRecord_sends, stepRecord_state, h1]
  simp only
  rw [h2]
  exact ⟨rfl, rfl⟩

lemma stepRecord_window (cfg : Config) (st : WatcherState) (d : LogRecord)
    (nF nE : ℚ) (oF oE : Bool) :
    (stepRecord cfg st d nF nE oF oE).1.window =
      dequePush cfg.windowSize st.window (errSample d) := by
  rw [stepRecord_state, stepError_window, stepFailover_window]

lemma stepFailover_advances (cfg : Config) (st : WatcherState) (d : LogRecord)
    (now : ℚ) (ok : Bool) (p : String) (hp : d.pool = some p)
    (h1 : p ≠ "") (h2 : st.last_seen_pool ≠ "") (h3 : p ≠ st.last_seen_pool) :
    (stepFailover cfg st d now ok).1.last_seen_pool = p := by
  simp only [stepFailover, hp]
  rw [if_pos ⟨h1, h2, h3⟩]
  split_ifs <;> rfl

lemma stepFailover_maint_frame (cfg : Config) (st : WatcherState)
    (d : LogRecord) (now : ℚ) (ok : Bool) (hm : cfg.maintenance = true) :
    (stepFailover cfg st d now ok).2 = [] ∧
    (stepFailover cfg st d now ok).1.lastFailover = st.lastFailover := by
  cases hd : d.pool with
  | none => rw [stepFailover_no_pool cfg st d now ok hd]; exact ⟨rfl, rfl⟩
  | some p =>
    by_cases hc : p ≠ "" ∧ st.last_seen_pool ≠ "" ∧ p ≠ st.last_seen_pool
    · rw [stepFailover_maint cfg st d now ok p hd hc hm]; exact ⟨rfl, rfl⟩
    · rw [stepFailover_no_flip cfg st d now ok p hd hc]; exact ⟨rfl, rfl⟩

lemma stepError_maint_cases (cfg : Config) (st : WatcherState) (d : LogRecord)
    (now : ℚ) (ok : Bool) (hm : cfg.maintenance = true) :
    ((stepError cfg st d now ok).2 = [] ∧
     (stepError cfg st d now ok).1.lastErrorRate = st.lastErrorRate ∧
     (stepError cfg st d now ok).1.alerted_error = st.alerted_error) ∨
    (stepError cfg st d now ok).2 = [AlertKind.recovery] := by
  by_cases hl : 1 ≤ (pushedWindow cfg st d).length
  · by_cases hr : winRate (pushedWindow cfg st d) > cfg.threshold
    · left
      rw [stepError_high_maint cfg st d now ok hl hr hm]
      exact ⟨rfl, rfl, rfl⟩
    · by_cases hrec : st.alerted_error = true ∧ cfg.cooldown ≤ now - st.lastErrorRate
      · right
        rw [stepError_recovery cfg st d now ok hl hr hrec.1 hrec.2]
      · left
        rw [stepError_low_idle cfg st d now ok hl hr hrec]
        exact ⟨rfl, rfl, rfl⟩
  · left
    rw [stepError_empty cfg st d now ok hl]
    exact ⟨rfl, rfl, rfl⟩

lemma stepFailover_lastFailover_cases (cfg : Config) (st : WatcherState)
    (d : LogRecord) (now : ℚ) (ok : Bool) :
    (stepFailover cfg st d now ok).1.lastFailover = st.lastFailover ∨
    (ok = true ∧ (stepFailover cfg st d now ok).1.lastFailover = now ∧
      (stepFailover cfg st d now ok).2 = [AlertKind.failover]) := by
  cases hd : d.pool with
  | none => left; rw [stepFailover_no_pool cfg st d now ok hd]
  | some p =>
    by_cases hc : p ≠ "" ∧ st.last_seen_pool ≠ "" ∧ p ≠ st.last_seen_pool
    · by_cases hm : cfg.maintenance = true
      · left; rw [stepFailover_maint cfg st d now ok p hd hc hm]
      · have hm' : cfg.maintenance = false := by simpa using hm
        by_cases hcd : cfg.cooldown ≤ now - st.lastFailover
        · rw [stepFailover_send cfg st d now ok p hd hc hm' hcd]
          cases ok with
          | false => left; rfl
          | true => right; exact ⟨rfl, rfl, rfl⟩
        · left; rw [stepFailover_cooldown cfg st d now ok p hd hc hm' hcd]
    · left; rw [stepFailover_no_flip cfg st d now ok p hd hc]

lemma stepError_lastErrorRate_cases (cfg : Config) (st : WatcherState)
    (d : LogRecord) (now : ℚ) (ok : Bool) :
    ((stepError cfg st d now ok).1.lastErrorRate = st.lastErrorRate ∧
     (stepError cfg st d now ok).1.alerted_error = st.alerted_error) ∨
    (ok = true ∧ (stepError cfg st d now ok).1.lastErrorRate = now ∧
      ((stepError cfg st d now ok).2 = [AlertKind.errorRate] ∨
       (stepError cfg st d now ok).2 = [AlertKind.recovery])) := by
  by_cases hl : 1 ≤ (pushedWindow cfg st d).length
  · by_cases hr : winRate (pushedWindow cfg st d) > cfg.threshold
    · by_cases hm : cfg.maintenance = true
      · left
        rw [stepError_high_maint cfg st d now ok hl hr hm]
        exact ⟨rfl, rfl⟩
      · have hm' : cfg.maintenance = false := by simpa using hm
        by_cases hcd : cfg.cooldown ≤ now - st.lastErrorRate
        · rw [stepError_high_send cfg st d now ok hl hr hm' hcd]
          cases ok with
          | false => left; exact ⟨rfl, rfl⟩
          | true => right; exact ⟨rfl, rfl, Or.inl rfl⟩
        · left
          rw [stepError_high_cooldown cfg st d now ok hl hr hm' hcd]
          exact ⟨rfl, rfl⟩
    · by_cases hrec : st.alerted_error = true ∧ cfg.cooldown ≤ now - st.lastErrorRate
      · rw [stepError_recovery cfg st d now ok hl hr hrec.1 hrec.2]
        cases ok with
        | false => left; exact ⟨rfl, rfl⟩
        | true => right; exact ⟨rfl, rfl, Or.inr rfl⟩
      · left
        rw [stepError_low_idle cfg st d now ok hl hr hrec]
        exact ⟨rfl, rfl⟩
  · left
    rw [stepError_empty cfg st d now ok hl]
    exact ⟨rfl, rfl⟩

/-! ### Nonemptiness of parsed pools -/

lemma strLower_ne_empty (v : String) (h : v ≠ "") : strLower v ≠ "" := by
  intro hcon
  apply h
  have hdata : v.toList.map charLower = [] := congrArg String.toList hcon
  have hnil : v.toList = [] := List.map_eq_nil_iff.1 hdata
  cases v with
  | mk data =>
    have hd : data = [] := hnil
    subst hd
    rfl

lemma inferUpstream_cases (fs : List (String × String)) :
    inferUpstream fs = none ∨ inferUpstream fs = some "blue" ∨
    inferUpstream fs = some "green" := by
  unfold inferUpstream
  cases pyGet fs "upstream_addr" with
  | none => exact Or.inl rfl
  | some up =>
    dsimp only
    split_ifs <;> simp

lemma poolOf_cases (fs : List (String × String)) :
    poolOf fs = none ∨ poolOf fs = some "blue" ∨ poolOf fs = some "green" ∨
    ∃ v, pyGet fs "pool" = some v ∧ v ≠ "" ∧ poolOf fs = some (strLower v) := by
  simp only [poolOf]
  cases hg : pyGet fs "pool" with
  | none =>
    dsimp only
    rcases inferUpstream_cases fs with h | h | h
    · exact Or.inl (by rw [h]; rfl)
    · exact Or.inr (Or.inl (by rw [h]; decide))
    · exact Or.inr (Or.inr (Or.inl (by rw [h]; decide)))
  | some v =>
    dsimp only
    by_cases hv : (v == "") = true
    · rw [if_pos hv]
      rcases inferUpstream_cases fs with h | h | h
      · exact Or.inl (by rw [h]; rfl)
      · exact Or.inr (Or.inl (by rw [h]; decide))
      · exact Or.inr (Or.inr (Or.inl (by rw [h]; decide)))
    · rw [if_neg hv]
      right; right; right
      exact ⟨v, rfl, by simpa using hv, by simp⟩

lemma poolOf_nonempty (fs : List (String × String)) (p : String)
    (h : poolOf fs = some p) : p ≠ "" := by
  rcases poolOf_cases fs with h0 | h0 | h0 | ⟨v, _, hvne, h0⟩ <;> rw [h0] at h
  · exact absurd h (by simp)
  · have : p = "blue" := by injection h with hh; exact hh.symm
    subst this; decide
  · have : p = "green" := by injection h with hh; exact hh.symm
    subst this; decide
  · have : p = strLower v := by injection h with hh; exact hh.symm
    subst this
    exact strLower_ne_empty v hvne

/-! ### Shared concrete scenarios -/

/-- A representative configuration: window 10, threshold 2 %, cooldown
300 s, maintenance off. -/
def cfgStd : Config := ⟨10, 2, 300, false⟩

/-- The same configuration with maintenance mode on. -/
def cfgMaint : Config := ⟨10, 2, 300, true⟩

lemma parse_green500 :
    parse_line "pool=green status=500" =
      { status := some 500, pool := some "green", release := "unknown",
        upstream_status := "-", upstream_addr := "-", request_time := "-",
        upstream_response_time := "-",
        raw := "pool=green status=500" } := by decide

/-! ### Claims -/

/-- C10: when the same key appears in more than one `key=value` token on a
single line, the parser uses the value of the last occurrence: `pyGet`
over the built dict returns the last occurrence's value, for every token
list and in particular for the quote-stripped token list of every line
(the `fields` dict used by `parse_line`). -/
theorem c10_duplicate_keys_last_wins :
    (∀ (ts : List (String × String)) (k : String),
      pyGet (pyDict ts) k = lastVal ts k) ∧
    (∀ (line k : String),
      pyGet (fieldsOf line) k =
        lastVal ((kvTokensRaw line).map (fun p => (p.1, stripQuotes p.2))) k) := by
  refine ⟨fun ts k => pyGet_pyDict_eq_lastVal ts k, fun line k => ?_⟩
  unfold fieldsOf
  exact pyGet_pyDict_eq_lastVal _ k

/-- C6: the error window's length never exceeds the capacity `N`; pushing
into a full window keeps the length exactly `N` and evicts precisely the
oldest entry (the head, strict FIFO); and the main-loop step preserves the
length bound on the watcher state. -/
theorem c6_window_capacity_fifo :
    (∀ (N : Nat) (w : List Nat) (x : Nat),
      w.length ≤ N → (dequePush N w x).length ≤ N) ∧
    (∀ (N : Nat) (w : List Nat) (x : Nat),
      w.length = N → (dequePush N w x).length = N) ∧
    (∀ (N : Nat) (w : List Nat) (x : Nat),
      w.length = N → 0 < N → dequePush N w x = w.drop 1 ++ [x]) ∧
    (∀ (cfg : Config) (st : WatcherState) (d : LogRecord) (nF nE : ℚ)
      (oF oE : Bool), st.window.length ≤ cfg.windowSize →
      (stepRecord cfg st d nF nE oF oE).1.window.length ≤ cfg.windowSize) := by
  refine ⟨dequePush_length_le, dequePush_length_full, dequePush_full_fifo, ?_⟩
  intro cfg st d nF nE oF oE h
  rw [stepRecord_window]
  exact dequePush_length_le _ _ _ h

/-- Witness for C6 at a full window of capacity 3. -/
theorem c6_window_capacity_fifo_witness :
    (dequePush 3 [1, 0, 1] 0).length ≤ 3 ∧
    (dequePush 3 [1, 0, 1] 0).length = 3 ∧
    dequePush 3 [1, 0, 1] 0 = [0, 1, 0] := by
  refine ⟨c6_window_capacity_fifo.1 3 [1, 0, 1] 0 (by norm_num),
          c6_window_capacity_fifo.2.1 3 [1, 0, 1] 0 rfl, ?_⟩
  have h := c6_window_capacity_fifo.2.2.1 3 [1, 0, 1] 0 rfl (by norm_num)
  simpa using h

/-- C7: `parse_line` is total by construction (a Lean function); when the
`status` token's value fails base-10 integer parsing the record's status
is absent (`none`, hence in particular not `some 0`), and a record whose
status is absent contributes the non-error sample `0` to the window. -/
theorem c7_unparsable_status_nonerror :
    ∀ (line : String) (cfg : Config) (st : WatcherState) (now : ℚ) (ok : Bool),
      (∀ v : String, pyGet (fieldsOf line) "status" = some v →
        pyInt? v = none → (parse_line line).status = none) ∧
      (pyGet (fieldsOf line) "status" = none →
        (parse_line line).status = none) ∧
      ((parse_line line).status = none →
        errSample (parse_line line) = 0 ∧
        (stepError cfg st (parse_line line) now ok).1.window =
          dequePush cfg.windowSize st.window 0) := by
  intro line cfg st now ok
  refine ⟨?_, ?_, ?_⟩
  · intro v hv hp
    rw [parse_line_status]
    simp only [statusOf, hv]
    exact hp
  · intro hv
    rw [parse_line_status]
    simp only [statusOf, hv]
  · intro h0
    have hs : errSample (parse_line line) = 0 := by
      unfold errSample
      rw [h0]
      rfl
    exact ⟨hs, by rw [stepError_window, hs]⟩

/-- Witness for C7 at the line `status=abc`. -/
theorem c7_unparsable_status_nonerror_witness :
    (parse_line "status=abc").status = none ∧
    errSample (parse_line "status=abc") = 0 := by
  have h := c7_unparsable_status_nonerror "status=abc" cfgStd (initState "blue") 5 true
  have h1 : (parse_line "status=abc").status = none :=
    h.1 "abc" (by decide) (by decide)
  exact ⟨h1, (h.2.2 h1).1⟩

/-- C9: an explicit pool token whose value is empty after quote stripping
(`pool=""`) is treated as absent: the parser falls back to the
`upstream_addr` inference and never returns an empty pool identifier. -/
theorem c9_empty_pool_field_falls_back :
    ∀ line : String, pyGet (fieldsOf line) "pool" = some "" →
      (parse_line line).pool = (inferUpstream (fieldsOf line)).map strLower ∧
      (parse_line line).pool ≠ some "" := by
  intro line hp
  have h1 : (parse_line line).pool =
      (inferUpstream (fieldsOf line)).map strLower := by
    rw [parse_line_pool]
    simp only [poolOf, hp]
    rfl
  refine ⟨h1, ?_⟩
  rw [h1]
  rcases inferUpstream_cases (fieldsOf line) with h | h | h <;> rw [h] <;> decide

/-- Witness for C9 at a line carrying `pool=""` and a green upstream. -/
theorem c9_empty_pool_field_falls_back_witness :
    (parse_line "pool=\"\" upstream_addr=10.0.0.7:app-green").pool =
      (inferUpstream
        (fieldsOf "pool=\"\" upstream_addr=10.0.0.7:app-green")).map strLower ∧
    (parse_line "pool=\"\" upstream_addr=10.0.0.7:app-green").pool ≠ some "" :=
  c9_empty_pool_field_falls_back _ (by decide)

/-! ### C8: pool determination, claim-side definitions -/

/-- The fallback of claim C8's procedure, in the claim's words: `blue` when
`upstream_addr` contains the blue-pool substring, else `green` when it
contains the green-pool substring, else absent.  (Same shape as the code's
`inferUpstream`.) -/
def c8Fallback (line : String) : Option String :=
  match pyGet (fieldsOf line) "upstream_addr" with
  | some up =>
    if containsSubstr up "app-blue" then some "blue"
    else if containsSubstr up "app-green" then some "green"
    else none
  | none => none

/-- Claim C8 taken literally: "the explicit pool field's value lower-cased
when that field is present; otherwise" the upstream fallback. -/
def c8PoolClaim (line : String) : Option String :=
  match pyGet (fieldsOf line) "pool" with
  | some v => some (strLower v)
  | none => c8Fallback line

/-- Claim C8 as amended: the explicit pool field wins only when it is
present with a non-empty value; an empty value falls back like absence. -/
def c8PoolAmended (line : String) : Option String :=
  match pyGet (fieldsOf line) "pool" with
  | some v => if v = "" then c8Fallback line else some (strLower v)
  | none => c8Fallback line

lemma c8Fallback_eq_inferUpstream (line : String) :
    c8Fallback line = inferUpstream (fieldsOf line) := rfl

lemma inferUpstream_map_strLower (fs : List (String × String)) :
    (inferUpstream fs).map strLower = inferUpstream fs := by
  rcases inferUpstream_cases fs with h | h | h <;> rw [h] <;> decide

/-- Counterexample to C8 as stated: on a line whose `pool` token has an
empty (quoted) value and whose upstream is blue, the claim's procedure
yields the empty pool identifier while the code yields `blue`. -/
theorem c8_counterexample :
    c8PoolClaim "pool=\"\" upstream_addr=app-blue:8080" = some "" ∧
    (parse_line "pool=\"\" upstream_addr=app-blue:8080").pool = some "blue" ∧
    c8PoolClaim "pool=\"\" upstream_addr=app-blue:8080" ≠
      (parse_line "pool=\"\" upstream_addr=app-blue:8080").pool := by
  refine ⟨by decide, by decide, by decide⟩

/-- C8 as amended: for every line the parsed pool equals the claim's
procedure, with the explicit field winning only when non-empty. -/
theorem c8_pool_determination :
    ∀ line : String, (parse_line line).pool = c8PoolAmended line := by
  intro line
  rw [parse_line_pool]
  simp only [poolOf, c8PoolAmended]
  cases hg : pyGet (fieldsOf line) "pool" with
  | none =>
    dsimp only
    rw [c8Fallback_eq_inferUpstream, inferUpstream_map_strLower]
  | some v =>
    dsimp only
    by_cases hv : (v == "") = true
    · have hv' : v = "" := by simpa using hv
      rw [if_pos hv, if_pos hv', c8Fallback_eq_inferUpstream,
        inferUpstream_map_strLower]
    · have hv' : ¬ v = "" := by simpa using hv
      rw [if_neg hv, if_neg hv']
      rfl

/-! ### C1: number of notification requests per record -/

lemma winRate_one : winRate [1] = 100 := by
  unfold winRate
  norm_num

lemma winRate_zero : winRate [0] = 0 := by
  unfold winRate
  norm_num

/-- The concrete run used by several counterexamples/witnesses: a flip to
`green` together with a 5xx status on one line, maintenance off, both
cooldowns elapsed, both deliveries successful: both alerts fire. -/
lemma run_green500 :
    stepRecord cfgStd (initState "blue") (parse_line "pool=green status=500")
      1000 1000 true true =
    ({ window := [1], last_seen_pool := "green", lastFailover := 1000,
       lastErrorRate := 1000, alerted_error := true },
     [AlertKind.failover, AlertKind.errorRate]) := by
  have hp : (parse_line "pool=green status=500").pool = some "green" := by
    rw [parse_green500]
  have h1 : stepFailover cfgStd (initState "blue")
      (parse_line "pool=green status=500") 1000 true =
      ({ window := [], last_seen_pool := "green", lastFailover := 1000,
         lastErrorRate := 0, alerted_error := false }, [AlertKind.failover]) := by
    rw [stepFailover_send cfgStd (initState "blue") _ 1000 true "green" hp
      ⟨by decide, by decide, by decide⟩ rfl (by norm_num [initState, cfgStd])]
    rfl
  have hw : pushedWindow cfgStd
      { window := [], last_seen_pool := "green", lastFailover := 1000,
        lastErrorRate := 0, alerted_error := false }
      (parse_line "pool=green status=500") = [1] := by decide
  have h2 : stepError cfgStd
      { window := [], last_seen_pool := "green", lastFailover := 1000,
        lastErrorRate := 0, alerted_error := false }
      (parse_line "pool=green status=500") 1000 true =
      ({ window := [1], last_seen_pool := "green", lastFailover := 1000,
         lastErrorRate := 1000, alerted_error := true }, [AlertKind.errorRate]) := by
    rw [stepError_high_send cfgStd _ _ 1000 true
      (by rw [hw]; decide)
      (by rw [hw, winRate_one]; norm_num [cfgStd])
      rfl (by norm_num [cfgStd]), hw]
    rfl
  have hrun := stepRecord_eq cfgStd (initState "blue")
    (parse_line "pool=green status=500") 1000 1000 true true _ _ _ _ h1 h2
  rw [hrun]
  rfl

/-- Counterexample to C1 as stated: one record (a pool flip carrying a 5xx
status) makes the loop issue two notification requests. -/
theorem c1_counterexample :
    ¬ (stepRecord cfgStd (initState "blue")
        (parse_line "pool=green status=500") 1000 1000 true true).2.length ≤ 1 := by
  rw [run_green500]
  decide

/-- C1 as amended: each decision procedure issues at most one notification
request per record, hence the loop issues at most two per record (and a
single record can indeed reach two, see the counterexample). -/
theorem c1_at_most_two_notifications :
    ∀ (cfg : Config) (st : WatcherState) (d : LogRecord) (nF nE : ℚ)
      (oF oE : Bool),
      (stepFailover cfg st d nF oF).2.length ≤ 1 ∧
      (stepError cfg st d nE oE).2.length ≤ 1 ∧
      (stepRecord cfg st d nF nE oF oE).2.length ≤ 2 := by
  intro cfg st d nF nE oF oE
  refine ⟨stepFailover_sends_le_one cfg st d nF oF,
          stepError_sends_le_one cfg st d nE oE, ?_⟩
  rw [stepRecord_sends, List.length_append]
  have h1 := stepFailover_sends_le_one cfg st d nF oF
  have h2 := stepError_sends_le_one cfg (stepFailover cfg st d nF oF).1 d nE oE
  omega

/-! ### C2: flips always advance the tracked pool -/

/-- Counterexample to C2 as stated: when the tracked active pool is the
empty string (reachable by configuring `ACTIVE_POOL=""`), a record with a
present, different parsed pool is not treated as a flip and the tracked
pool does not advance. -/
theorem c2_counterexample :
    (parse_line "pool=green").pool = some "green" ∧
    (initState "").last_seen_pool ≠ "green" ∧
    (stepFailover cfgStd (initState "") (parse_line "pool=green") 1000
        true).1.last_seen_pool ≠ "green" ∧
    (stepFailover cfgStd (initState "") (parse_line "pool=green") 1000
        true).2 = [] := by
  have hp : (parse_line "pool=green").pool = some "green" := by decide
  have h := stepFailover_no_flip cfgStd (initState "") (parse_line "pool=green")
    1000 true "green" hp (fun hcon => hcon.2.1 rfl)
  refine ⟨hp, by decide, ?_, ?_⟩
  · rw [h]; decide
  · rw [h]

/-- C2 as amended: for every record whose parsed pool is present and
differs from the tracked active pool, provided the tracked pool is
non-empty (the code's truthiness guard), the tracked pool advances in
every branch (maintenance, cooldown, send success or failure); and two
flips within one cooldown window produce exactly one failover notification
while the tracked pool updates both times. -/
theorem c2_flip_advances_tracked_pool :
    (∀ (cfg : Config) (st : WatcherState) (line : String) (now : ℚ)
      (ok : Bool) (p : String),
      (parse_line line).pool = some p → st.last_seen_pool ≠ "" →
      p ≠ st.last_seen_pool →
      (stepFailover cfg st (parse_line line) now ok).1.last_seen_pool = p) ∧
    (∀ (cfg : Config) (st : WatcherState) (l1 l2 : String) (t1 t2 : ℚ)
      (ok2 : Bool) (p1 p2 : String),
      (parse_line l1).pool = some p1 → (parse_line l2).pool = some p2 →
      st.last_seen_pool ≠ "" → p1 ≠ st.last_seen_pool → p2 ≠ p1 →
      cfg.maintenance = false → cfg.cooldown ≤ t1 - st.lastFailover →
      t2 - t1 < cfg.cooldown →
      (stepFailover cfg st (parse_line l1) t1 true).2 = [AlertKind.failover] ∧
      (stepFailover cfg st (parse_line l1) t1 true).1.last_seen_pool = p1 ∧
      (stepFailover cfg (stepFailover cfg st (parse_line l1) t1 true).1
        (parse_line l2) t2 ok2).2 = [] ∧
      (stepFailover cfg (stepFailover cfg st (parse_line l1) t1 true).1
        (parse_line l2) t2 ok2).1.last_seen_pool = p2) := by
  constructor
  · intro cfg st line now ok p hp hne hdiff
    have hpne : p ≠ "" := poolOf_nonempty (fieldsOf line) p
      ((parse_line_pool line) ▸ hp)
    exact stepFailover_advances cfg st (parse_line line) now ok p hp hpne hne hdiff
  · intro cfg st l1 l2 t1 t2 ok2 p1 p2 h1 h2 hne hd1 hd2 hm hcd1 hcd2
    have hp1ne : p1 ≠ "" := poolOf_nonempty (fieldsOf l1) p1
      ((parse_line_pool l1) ▸ h1)
    have hp2ne : p2 ≠ "" := poolOf_nonempty (fieldsOf l2) p2
      ((parse_line_pool l2) ▸ h2)
    have hs1 : stepFailover cfg st (parse_line l1) t1 true =
        ({ st with last_seen_pool := p1, lastFailover := t1 },
          [AlertKind.failover]) := by
      rw [stepFailover_send cfg st (parse_line l1) t1 true p1 h1
        ⟨hp1ne, hne, hd1⟩ hm hcd1]
      rfl
    have hs2 : stepFailover cfg { st with last_seen_pool := p1, lastFailover := t1 }
        (parse_line l2) t2 ok2 =
        ({ st with last_seen_pool := p2, lastFailover := t1 }, []) := by
      rw [stepFailover_cooldown cfg _ (parse_line l2) t2 ok2 p2 h2
        ⟨hp2ne, hp1ne, hd2⟩ hm (not_le.2 hcd2)]
    rw [hs1]
    exact ⟨rfl, rfl, by rw [hs2], by rw [hs2]⟩

/-- Witness for C2 at two concrete flips 100 s apart with a 300 s
cooldown. -/
theorem c2_flip_advances_tracked_pool_witness :
    (stepFailover cfgStd (initState "blue") (parse_line "pool=green") 1000
        true).2 = [AlertKind.failover] ∧
    (stepFailover cfgStd (initState "blue") (parse_line "pool=green") 1000
        true).1.last_seen_pool = "green" ∧
    (stepFailover cfgStd
        (stepFailover cfgStd (initState "blue") (parse_line "pool=green") 1000
          true).1 (parse_line "pool=blue") 1100 true).2 = [] ∧
    (stepFailover cfgStd
        (stepFailover cfgStd (initState "blue") (parse_line "pool=green") 1000
          true).1 (parse_line "pool=blue") 1100 true).1.last_seen_pool =
      "blue" :=
  c2_flip_advances_tracked_pool.2 cfgStd (initState "blue") "pool=green"
    "pool=blue" 1000 1100 true "green" "blue" (by decide) (by decide)
    (by decide) (by decide) (by decide) rfl
    (by norm_num [initState, cfgStd]) (by norm_num [cfgStd])

/-! ### C3: error-rate recovery transition -/

/-- The alerted state used by the recovery scenarios. -/
def stAlerted : WatcherState :=
  { window := [], last_seen_pool := "blue", lastFailover := 0,
    lastErrorRate := 0, alerted_error := true }

/-- C3: whenever the freshly pushed window is nonempty, its rate is at or
below the threshold, and `alerted_error` holds, then: with the cooldown
elapsed a recovery notification is emitted, and on delivery success the
timestamp becomes `now` and the flag clears while on failure both stay
unchanged; with the cooldown not elapsed nothing is emitted and both stay
unchanged.  (The recovery path is not gated by maintenance, mirroring the
code.) -/
theorem c3_recovery_transition :
    ∀ (cfg : Config) (st : WatcherState) (d : LogRecord) (now : ℚ) (ok : Bool),
      st.alerted_error = true →
      1 ≤ (pushedWindow cfg st d).length →
      winRate (pushedWindow cfg st d) ≤ cfg.threshold →
      ((cfg.cooldown ≤ now - st.lastErrorRate →
        (stepError cfg st d now ok).2 = [AlertKind.recovery] ∧
        (ok = true → (stepError cfg st d now ok).1.lastErrorRate = now ∧
          (stepError cfg st d now ok).1.alerted_error = false) ∧
        (ok = false →
          (stepError cfg st d now ok).1.lastErrorRate = st.lastErrorRate ∧
          (stepError cfg st d now ok).1.alerted_error = true)) ∧
      (¬ cfg.cooldown ≤ now - st.lastErrorRate →
        (stepError cfg st d now ok).2 = [] ∧
        (stepError cfg st d now ok).1.lastErrorRate = st.lastErrorRate ∧
        (stepError cfg st d now ok).1.alerted_error = true)) := by
  intro cfg st d now ok ha hl hr
  have hr' : ¬ winRate (pushedWindow cfg st d) > cfg.threshold := not_lt.2 hr
  constructor
  · intro hcd
    rw [stepError_recovery cfg st d now ok hl hr' ha hcd]
    cases ok with
    | false =>
      exact ⟨rfl, fun h => absurd h (by simp), fun _ => ⟨rfl, ha⟩⟩
    | true =>
      exact ⟨rfl, fun _ => ⟨rfl, rfl⟩, fun h => absurd h (by simp)⟩
  · intro hcd
    rw [stepError_low_idle cfg st d now ok hl hr' (fun hcon => hcd hcon.2)]
    exact ⟨rfl, rfl, ha⟩

/-- Witness for C3: an alerted state, a non-error record, cooldown elapsed,
delivery success: one recovery, timestamp updated, flag cleared. -/
theorem c3_recovery_transition_witness :
    (stepError cfgStd stAlerted (parse_line "status=200") 1000 true).2 =
      [AlertKind.recovery] ∧
    (stepError cfgStd stAlerted (parse_line "status=200") 1000
        true).1.lastErrorRate = 1000 ∧
    (stepError cfgStd stAlerted (parse_line "status=200") 1000
        true).1.alerted_error = false := by
  have hw : pushedWindow cfgStd stAlerted (parse_line "status=200") = [0] := by
    decide
  have h := (c3_recovery_transition cfgStd stAlerted (parse_line "status=200")
    1000 true rfl (by rw [hw]; decide)
    (by rw [hw, winRate_zero]; norm_num [cfgStd])).1
    (by norm_num [stAlerted, cfgStd])
  exact ⟨h.1, (h.2.1 rfl).1, (h.2.1 rfl).2⟩

/-! ### C4: cooldown timestamps advance only on successful delivery -/

/-- C4: delivery success is exactly a present webhook with a response
status `< 400` (absence, a transport failure, and a status `≥ 400` all
count as failure); and for either alert kind the per-kind cooldown
timestamp changes over a step only when the corresponding delivery
outcome was success, in which case it becomes the current time and the
corresponding notification request was issued. -/
theorem c4_cooldown_only_on_success :
    ∀ (cfg : Config) (st : WatcherState) (d : LogRecord) (nF nE : ℚ)
      (oF oE : Bool) (w : Option String) (r : Option Nat),
      (send_slack w r = true ↔ ∃ u c, w = some u ∧ r = some c ∧ c < 400) ∧
      ((stepRecord cfg st d nF nE oF oE).1.lastFailover ≠ st.lastFailover →
        oF = true ∧ (stepRecord cfg st d nF nE oF oE).1.lastFailover = nF ∧
        AlertKind.failover ∈ (stepRecord cfg st d nF nE oF oE).2) ∧
      ((stepRecord cfg st d nF nE oF oE).1.lastErrorRate ≠ st.lastErrorRate →
        oE = true ∧ (stepRecord cfg st d nF nE oF oE).1.lastErrorRate = nE ∧
        (AlertKind.errorRate ∈ (stepRecord cfg st d nF nE oF oE).2 ∨
         AlertKind.recovery ∈ (stepRecord cfg st d nF nE oF oE).2)) := by
  intro cfg st d nF nE oF oE w r
  refine ⟨?_, ?_, ?_⟩
  · constructor
    · intro h
      cases w with
      | none => simp [send_slack] at h
      | some u =>
        cases r with
        | none => simp [send_slack] at h
        | some c =>
          refine ⟨u, c, rfl, rfl, ?_⟩
          simpa [send_slack] using h
    · rintro ⟨u, c, rfl, rfl, hc⟩
      simpa [send_slack] using hc
  · intro hne
    have hLF : (stepRecord cfg st d nF nE oF oE).1.lastFailover =
        (stepFailover cfg st d nF oF).1.lastFailover := by
      rw [stepRecord_state, stepError_lastFailover]
    rcases stepFailover_lastFailover_cases cfg st d nF oF with
      h | ⟨hok, hnow, hsend⟩
    · exact absurd (hLF.trans h) hne
    · refine ⟨hok, hLF.trans hnow, ?_⟩
      rw [stepRecord_sends, hsend]
      simp
  · intro hne
    have hst1 : (stepFailover cfg st d nF oF).1.lastErrorRate =
        st.lastErrorRate := stepFailover_lastErrorRate cfg st d nF oF
    have hLE : (stepRecord cfg st d nF nE oF oE).1.lastErrorRate =
        (stepError cfg (stepFailover cfg st d nF oF).1 d nE oE).1.lastErrorRate := by
      rw [stepRecord_state]
    rcases stepError_lastErrorRate_cases cfg (stepFailover cfg st d nF oF).1
        d nE oE with ⟨h, _⟩ | ⟨hok, hnow, hsnd⟩
    · exact absurd (hLE.trans (h.trans hst1)) hne
    · refine ⟨hok, hLE.trans hnow, ?_⟩
      rw [stepRecord_sends]
      rcases hsnd with h2 | h2 <;> rw [h2] <;> simp

/-- Witness for C4: the success characterisation at concrete outcomes, and
a step in which the failover timestamp did change and the theorem yields
the delivered notification. -/
theorem c4_cooldown_only_on_success_witness :
    send_slack (some "hook") (some 200) = true ∧
    send_slack none (some 200) = false ∧
    send_slack (some "hook") none = false ∧
    send_slack (some "hook") (some 500) = false ∧
    (stepRecord cfgStd (initState "blue") (parse_line "pool=green status=500")
        1000 1000 true true).1.lastFailover = 1000 ∧
    AlertKind.failover ∈ (stepRecord cfgStd (initState "blue")
        (parse_line "pool=green status=500") 1000 1000 true true).2 := by
  have hthm := c4_cooldown_only_on_success cfgStd (initState "blue")
    (parse_line "pool=green status=500") 1000 1000 true true
    (some "hook") (some 200)
  have h1 : send_slack (some "hook") (some 200) = true :=
    hthm.1.2 ⟨"hook", 200, rfl, rfl, by norm_num⟩
  have hchanged : (stepRecord cfgStd (initState "blue")
      (parse_line "pool=green status=500") 1000 1000 true
        true).1.lastFailover ≠ (initState "blue").lastFailover := by
    rw [run_green500]
    norm_num [initState]
  have h3 := hthm.2.1 hchanged
  exact ⟨h1, by decide, by decide, by decide, h3.2.1, h3.2.2⟩

/-! ### C5: maintenance mode -/

/-- Counterexample to C5 as stated: with maintenance on, an alerted state,
a below-threshold rate and an elapsed cooldown, the recovery notice is
still sent and, on success, both the error-rate cooldown timestamp and the
`alerted_error` flag are modified. -/
theorem c5_counterexample :
    cfgMaint.maintenance = true ∧
    (stepRecord cfgMaint stAlerted (parse_line "status=200") 1000 1000 true
        true).2 = [AlertKind.recovery] ∧
    (stepRecord cfgMaint stAlerted (parse_line "status=200") 1000 1000 true
        true).1.alerted_error ≠ stAlerted.alerted_error ∧
    (stepRecord cfgMaint stAlerted (parse_line "status=200") 1000 1000 true
        true).1.lastErrorRate ≠ stAlerted.lastErrorRate := by
  have hp : (parse_line "status=200").pool = none := by decide
  have h1 : stepFailover cfgMaint stAlerted (parse_line "status=200") 1000 true
      = (stAlerted, []) := stepFailover_no_pool cfgMaint stAlerted _ 1000 true hp
  have hw : pushedWindow cfgMaint stAlerted (parse_line "status=200") = [0] := by
    decide
  have h2 : stepError cfgMaint stAlerted (parse_line "status=200") 1000 true =
      ({ stAlerted with window := [0], lastErrorRate := 1000, alerted_error := false },
        [AlertKind.recovery]) := by
    rw [stepError_recovery cfgMaint stAlerted _ 1000 true
      (by rw [hw]; decide)
      (by rw [hw, winRate_zero]; norm_num [cfgMaint])
      rfl (by norm_num [stAlerted, cfgMaint]), hw]
    rfl
  have hrun := stepRecord_eq cfgMaint stAlerted (parse_line "status=200")
    1000 1000 true true _ _ _ _ h1 h2
  refine ⟨rfl, ?_, ?_, ?_⟩
  · rw [hrun]
    rfl
  · rw [hrun]
    simp [stAlerted]
  · rw [hrun]
    norm_num [stAlerted]

/-- C5 as amended: with maintenance on, no failover and no elevated-rate
notification is ever issued, the failover cooldown timestamp is untouched,
the window still receives the sample, and a detected flip still advances
the tracked pool; the only possible notification is the recovery notice
(whose path the code does not gate on maintenance), and when it is not
issued the error-rate timestamp and `alerted_error` are untouched too. -/
theorem c5_maintenance_behavior :
    ∀ (cfg : Config) (st : WatcherState) (d : LogRecord) (nF nE : ℚ)
      (oF oE : Bool), cfg.maintenance = true →
      AlertKind.failover ∉ (stepRecord cfg st d nF nE oF oE).2 ∧
      AlertKind.errorRate ∉ (stepRecord cfg st d nF nE oF oE).2 ∧
      (stepRecord cfg st d nF nE oF oE).1.lastFailover = st.lastFailover ∧
      (stepRecord cfg st d nF nE oF oE).1.window =
        dequePush cfg.windowSize st.window (errSample d) ∧
      (∀ p : String, d.pool = some p → p ≠ "" → st.last_seen_pool ≠ "" →
        p ≠ st.last_seen_pool →
        (stepRecord cfg st d nF nE oF oE).1.last_seen_pool = p) ∧
      ((stepRecord cfg st d nF nE oF oE).2 = [] ∨
       (stepRecord cfg st d nF nE oF oE).2 = [AlertKind.recovery]) ∧
      ((stepRecord cfg st d nF nE oF oE).2 = [] →
        (stepRecord cfg st d nF nE oF oE).1.lastErrorRate = st.lastErrorRate ∧
        (stepRecord cfg st d nF nE oF oE).1.alerted_error = st.alerted_error) := by
  intro cfg st d nF nE oF oE hm
  obtain ⟨hf0, hfLF⟩ := stepFailover_maint_frame cfg st d nF oF hm
  have hsends : (stepRecord cfg st d nF nE oF oE).2 =
      (stepError cfg (stepFailover cfg st d nF oF).1 d nE oE).2 := by
    rw [stepRecord_sends, hf0, List.nil_append]
  have hcases := stepError_maint_cases cfg (stepFailover cfg st d nF oF).1
    d nE oE hm
  refine ⟨?_, ?_, ?_, ?_, ?_, ?_, ?_⟩
  · rw [hsends]
    rcases hcases with ⟨he0, _, _⟩ | herec
    · rw [he0]; simp
    · rw [herec]; simp
  · rw [hsends]
    rcases hcases with ⟨he0, _, _⟩ | herec
    · rw [he0]; simp
    · rw [herec]; simp
  · rw [stepRecord_state, stepError_lastFailover]
    exact hfLF
  · exact stepRecord_window cfg st d nF nE oF oE
  · intro p hp h1 h2 h3
    rw [stepRecord_state, stepError_last_seen_pool]
    exact stepFailover_advances cfg st d nF oF p hp h1 h2 h3
  · rw [hsends]
    rcases hcases with ⟨he0, _, _⟩ | herec
    · exact Or.inl he0
    · exact Or.inr herec
  · intro h0
    rcases hcases with ⟨he0, heLE, heA⟩ | herec
    · constructor
      · rw [stepRecord_state, heLE]
        exact stepFailover_lastErrorRate cfg st d nF oF
      · rw [stepRecord_state, heA]
        exact stepFailover_alerted cfg st d nF oF
    · rw [hsends, herec] at h0
      exact absurd h0 (by simp)

/-- Witness for C5: maintenance on, a flip with a 5xx record: nothing is
sent, the pool still advances, the window takes the sample, and the
error state is untouched. -/
theorem c5_maintenance_behavior_witness :
    AlertKind.failover ∉ (stepRecord cfgMaint (initState "blue")
      (parse_line "pool=green status=500") 1000 1000 true true).2 ∧
    (stepRecord cfgMaint (initState "blue")
      (parse_line "pool=green status=500") 1000 1000 true
        true).1.last_seen_pool = "green" ∧
    (stepRecord cfgMaint (initState "blue")
      (parse_line "pool=green status=500") 1000 1000 true
        true).1.window = dequePush 10 [] 1 ∧
    (stepRecord cfgMaint (initState "blue")
      (parse_line "pool=green status=500") 1000 1000 true
        true).1.lastErrorRate = 0 := by
  have h := c5_maintenance_behavior cfgMaint (initState "blue")
    (parse_line "pool=green status=500") 1000 1000 true true rfl
  have hw : (stepRecord cfgMaint (initState "blue")
      (parse_line "pool=green status=500") 1000 1000 true true).1.window =
      dequePush 10 [] 1 := by
    rw [h.2.2.2.1]
    decide
  have hsnone : (stepRecord cfgMaint (initState "blue")
      (parse_line "pool=green status=500") 1000 1000 true true).2 = [] := by
    rcases h.2.2.2.2.2.1 with h0 | h0
    · exact h0
    · exfalso
      have hrec : AlertKind.recovery ∈ (stepRecord cfgMaint (initState "blue")
          (parse_line "pool=green status=500") 1000 1000 true true).2 := by
        rw [h0]; simp
      have hsends : (stepRecord cfgMaint (initState "blue")
          (parse_line "pool=green status=500") 1000 1000 true true).2 =
          (stepError cfgMaint
            (stepFailover cfgMaint (initState "blue")
              (parse_line "pool=green status=500") 1000 true).1
            (parse_line "pool=green status=500") 1000 true).2 := by
        rw [stepRecord_sends,
          (stepFailover_maint_frame cfgMaint (initState "blue")
            (parse_line "pool=green status=500") 1000 true rfl).1,
          List.nil_append]
      have hfl : stepFailover cfgMaint (initState "blue")
          (parse_line "pool=green status=500") 1000 true =
          ({ initState "blue" with last_seen_pool := "green" }, []) :=
        stepFailover_maint cfgMaint (initState "blue") _ 1000 true "green"
          (by rw [parse_green500]) ⟨by decide, by decide, by decide⟩ rfl
      rw [hsends, hfl] at h0
      have hw2 : pushedWindow cfgMaint
          { initState "blue" with last_seen_pool := "green" }
          (parse_line "pool=green status=500") = [1] := by decide
      rw [stepError_high_maint cfgMaint _ _ 1000 true
        (by rw [hw2]; decide)
        (by rw [hw2, winRate_one]; norm_num [cfgMaint]) rfl] at h0
      exact absurd h0 (by simp)
  refine ⟨h.1, ?_, hw, (h.2.2.2.2.2.2 hsnone).1⟩
  exact h.2.2.2.2.1 "green" (by rw [parse_green500]) (by decide) (by decide)
    (by decide)

end AlertWatcher
